import Mathlib

/-!
Shallow embedding of the report-rendering pipeline of `src/index.js`
(autocannon load-test report generator), together with theorems settling
the specification claims about it.

Conventions:
* JS numbers are modelled as exact rationals (`ℚ`); integer counts and
  elapsed seconds as `ℕ`.
* A JS object used as a finite map is modelled as an association list
  whose keys are distinct (`Nodup` on the key projection).
* `Math.round` is `jsRound` (half-up, i.e. `⌊q + 1/2⌋`, matching JS for
  the non-negative values that occur here).
* Fallible evaluation (a JS `ReferenceError` / `TypeError`) is modelled
  with `Except Unit`.
-/

/-- JS `Math.round`: rounds half toward positive infinity. -/
def jsRound (q : ℚ) : ℤ := ⌊q + 1/2⌋

/-- Embeds the first timeline branch of `generateCharts` (src/index.js
lines 102-114): `Object.keys(result.requestsTimeline)` are sorted with the
comparator `(a, b) => parseInt(a) - parseInt(b)` (a stable numeric
ascending sort, here `insertionSort` on `ℕ`), and for each key, in that
order, the mapped count is emitted.  The JS object with numeric keys is
modelled as an association list `m` with distinct keys. -/
def reconstructTimeline (m : List (Nat × Nat)) : List (Nat × Nat) :=
  ((m.map Prod.fst).insertionSort (· ≤ ·)).map fun k => (k, (m.lookup k).getD 0)

theorem lookup_eq_of_nodup (m : List (Nat × Nat)) (p : Nat × Nat)
    (hnd : (m.map Prod.fst).Nodup) (hp : p ∈ m) : m.lookup p.1 = some p.2 := by
  induction m with
  | nil => cases hp
  | cons q t ih =>
    simp only [List.map_cons, List.nodup_cons] at hnd
    rcases List.mem_cons.mp hp with rfl | hp
    · simp [List.lookup]
    · have hne : p.1 ≠ q.1 := by
        intro hEq
        exact hnd.1 (hEq ▸ List.mem_map_of_mem Prod.fst hp)
      have hb : (p.1 == q.1) = false := by simpa using hne
      simp only [List.lookup, hb]
      exact ih hnd.2 hp

theorem map_self_of_lookup (m : List (Nat × Nat))
    (hnd : (m.map Prod.fst).Nodup) :
    m.map (fun p => (p.1, (m.lookup p.1).getD 0)) = m := by
  have h := List.map_congr_left (l := m)
    (f := fun p => (p.1, (m.lookup p.1).getD 0)) (g := id) ?_
  · simpa using h
  · intro p hp
    simp [lookup_eq_of_nodup m p hnd hp]

/-- C1: for a non-empty per-second request-count mapping with distinct
keys, the reconstructed timeline has one entry per distinct key, its
elapsed-second values are strictly increasing, and its entries are
exactly the entries of the mapping (no gap-filling, length = number of
distinct keys). -/
theorem timeline_from_nonempty_mapping (m : List (Nat × Nat))
    (hne : m ≠ []) (hnd : (m.map Prod.fst).Nodup) :
    (reconstructTimeline m).length = m.length ∧
    ((reconstructTimeline m).map Prod.fst).Sorted (· < ·) ∧
    (reconstructTimeline m).Perm m := by
  have hperm := List.perm_insertionSort (α := ℕ) (· ≤ ·) (m.map Prod.fst)
  refine ⟨?_, ?_, ?_⟩
  · simp [reconstructTimeline, hperm.length_eq]
  · have hfst : (reconstructTimeline m).map Prod.fst
        = (m.map Prod.fst).insertionSort (· ≤ ·) := by
      show (((m.map Prod.fst).insertionSort (· ≤ ·)).map
          (fun k => (k, (m.lookup k).getD 0))).map Prod.fst = _
      rw [List.map_map]
      exact List.map_id _
    rw [hfst]
    have hsorted : ((m.map Prod.fst).insertionSort (· ≤ ·)).Sorted (· ≤ ·) :=
      List.sorted_insertionSort (· ≤ ·) (m.map Prod.fst)
    have hnd' : ((m.map Prod.fst).insertionSort (· ≤ ·)).Nodup :=
      hperm.nodup_iff.mpr hnd
    exact hsorted.lt_of_le hnd'
  · have h1 : reconstructTimeline m
        = ((m.map Prod.fst).insertionSort (· ≤ ·)).map
            (fun k => (k, (m.lookup k).getD 0)) := rfl
    rw [h1]
    have h2 := hperm.map (fun k => (k, (m.lookup k).getD 0))
    refine h2.trans ?_
    have h3 : (m.map Prod.fst).map (fun k => (k, (m.lookup k).getD 0)) = m := by
      rw [List.map_map]
      exact map_self_of_lookup m hnd
    rw [h3]

theorem timeline_from_nonempty_mapping_witness :
    (([(3, 5), (1, 2)] : List (Nat × Nat)) ≠ []) ∧
    ((([(3, 5), (1, 2)] : List (Nat × Nat)).map Prod.fst).Nodup) ∧
    ((reconstructTimeline [(3, 5), (1, 2)]).length = ([(3, 5), (1, 2)] : List (Nat × Nat)).length ∧
     ((reconstructTimeline [(3, 5), (1, 2)]).map Prod.fst).Sorted (· < ·) ∧
     (reconstructTimeline [(3, 5), (1, 2)]).Perm [(3, 5), (1, 2)]) :=
  ⟨by decide, by decide, timeline_from_nonempty_mapping _ (by decide) (by decide)⟩

/-- An rgba color as produced by the template strings in
`generateColorGradient`: integer red, green, blue channels plus a
rational alpha. -/
structure RGBA where
  r : ℤ
  g : ℤ
  b : ℤ
  a : ℚ
deriving DecidableEq

/-- The loop body of `generateColorGradient` (src/index.js lines
594-614): for position `i`, `ratio = i / (count - 1 || 1)`; below `1/2`
the color is `rgba(75, round(75 + (255-75)*(ratio*2)), 192, 0.6)`,
otherwise `greenValue = 255 - 255*((ratio-0.5)*2)` and the color is
`rgba(255, round(greenValue), round(greenValue*0.5), 0.6)`.  For
`count = 0` the JS expression `count - 1 || 1` is `-1`, but the loop body
never runs, so `max` over `ℕ` is an equivalent model. -/
def gradientColorAt (count i : Nat) : RGBA :=
  let r : ℚ := (i : ℚ) / ((max (count - 1) 1 : ℕ) : ℚ)
  if r < 1/2 then
    RGBA.mk 75 (jsRound (75 + (255 - 75) * (r * 2))) 192 (3/5)
  else
    let greenValue : ℚ := 255 - 255 * ((r - 1/2) * 2)
    RGBA.mk 255 (jsRound greenValue) (jsRound (greenValue * (1/2))) (3/5)

/-- Embeds `generateColorGradient` (src/index.js lines 594-614): the
loop `for (let i = 0; i < count; i++) colors.push(...)`. -/
def generateColorGradient (count : Nat) : List RGBA :=
  (List.range count).map (gradientColorAt count)

/-- Modelled from the spec words of claim C4 (the reference formula):
`ratio = i / max(N-1, 1)`; if `ratio < 0.5` the color is
`rgba(75, round(75 + 180*(2*ratio)), 192, 0.6)`; if `ratio >= 0.5` the
color is `rgba(255, g, round(g*0.5), 0.6)` with
`g = round(255 - 255*(2*(ratio - 0.5)))` — note the blue channel here is
computed from the already-rounded green channel `g`. -/
def claimGradientColor (n i : Nat) : RGBA :=
  let r : ℚ := (i : ℚ) / ((max (n - 1) 1 : ℕ) : ℚ)
  if r < 1/2 then
    RGBA.mk 75 (jsRound (75 + 180 * (2 * r))) 192 (3/5)
  else
    let g : ℤ := jsRound (255 - 255 * (2 * (r - 1/2)))
    RGBA.mk 255 g (jsRound ((g : ℚ) * (1/2))) (3/5)

/-- The claim's reference formula amended at the blue channel: the blue
channel is `round(gr * 0.5)` where `gr` is the unrounded green value
`255 - 255*(2*(ratio - 0.5))`, not the rounded channel `g`. -/
def claimGradientColorAmended (n i : Nat) : RGBA :=
  let r : ℚ := (i : ℚ) / ((max (n - 1) 1 : ℕ) : ℚ)
  if r < 1/2 then
    RGBA.mk 75 (jsRound (75 + 180 * (2 * r))) 192 (3/5)
  else
    let gr : ℚ := 255 - 255 * (2 * (r - 1/2))
    RGBA.mk 255 (jsRound gr) (jsRound (gr * (1/2))) (3/5)

/-- Squared euclidean distance of a color to pure green `(0, 255, 0)`;
used to express which of two colors is closer to green. -/
def distGreenSq (c : RGBA) : ℤ := c.r ^ 2 + (c.g - 255) ^ 2 + c.b ^ 2

theorem generateColorGradient_getD (count i : Nat) (h : i < count) (d : RGBA) :
    (generateColorGradient count).getD i d = gradientColorAt count i := by
  rw [generateColorGradient,
    List.getD_eq_getElem _ _ (by rw [List.length_map, List.length_range]; exact h)]
  simp only [List.getElem_map, List.getElem_range]

/-- C4 counterexample: at `N = 8`, position `4` (`ratio = 4/7`), the code
rounds `greenValue * 0.5 = 109.28...` to `109`, while the claim's formula
rounds `round(greenValue) * 0.5 = 219 * 0.5 = 109.5` to `110`. -/
theorem gradient_claim_formula_counterexample :
    (generateColorGradient 8).getD 4 (RGBA.mk 0 0 0 0) ≠ claimGradientColor 8 4 := by
  rw [generateColorGradient_getD 8 4 (by norm_num)]
  have hratio : ((4 : ℕ) : ℚ) / ((max (8 - 1) 1 : ℕ) : ℚ) = 4/7 := by norm_num
  simp only [gradientColorAt, claimGradientColor, hratio]
  rw [if_neg (by norm_num), if_neg (by norm_num)]
  have h1 : (255 - 255 * (((4:ℚ)/7 - 1/2) * 2)) = 1530/7 := by norm_num
  have h2 : (255 - 255 * (2 * ((4:ℚ)/7 - 1/2))) = 1530/7 := by norm_num
  rw [h1, h2]
  have hg : jsRound ((1530:ℚ)/7) = 219 := by
    rw [jsRound]; norm_num [Int.floor_eq_iff]
  have hb1 : jsRound ((1530:ℚ)/7 * (1/2)) = 109 := by
    rw [jsRound]; norm_num [Int.floor_eq_iff]
  rw [hg, hb1]
  have hb2 : jsRound (((219:ℤ) : ℚ) * (1/2)) = 110 := by
    rw [jsRound]; norm_num [Int.floor_eq_iff]
  rw [hb2]
  simp [RGBA.mk.injEq]

theorem jsRound_eq (q : ℚ) (z : ℤ) (h1 : (z : ℚ) ≤ q + 1/2) (h2 : q + 1/2 < (z : ℚ) + 1) :
    jsRound q = z := by
  rw [jsRound]
  exact Int.floor_eq_iff.mpr ⟨h1, h2⟩

theorem gradientColorAt_eq_amended (n i : Nat) :
    gradientColorAt n i = claimGradientColorAmended n i := by
  simp only [gradientColorAt, claimGradientColorAmended]
  generalize ((i : ℚ) / ((max (n - 1) 1 : ℕ) : ℚ)) = R
  by_cases hc : R < 1/2
  · rw [if_pos hc, if_pos hc,
      show (75 : ℚ) + (255 - 75) * (R * 2) = 75 + 180 * (2 * R) from by ring]
  · rw [if_neg hc, if_neg hc,
      show (255 : ℚ) - 255 * ((R - 1/2) * 2) = 255 - 255 * (2 * (R - 1/2)) from by ring]

theorem gradientColorAt_zero (n : Nat) :
    gradientColorAt n 0 = RGBA.mk 75 75 192 (3/5) := by
  have h0 : ((0 : ℕ) : ℚ) / ((max (n - 1) 1 : ℕ) : ℚ) = 0 := by
    simp
  simp only [gradientColorAt, h0]
  rw [if_pos (by norm_num),
    show (75 : ℚ) + (255 - 75) * ((0 : ℚ) * 2) = 75 from by ring,
    jsRound_eq 75 75 (by norm_num) (by norm_num)]

theorem gradientColorAt_last (n : Nat) (h : 2 ≤ n) :
    gradientColorAt n (n - 1) = RGBA.mk 255 0 0 (3/5) := by
  have hmax : (max (n - 1) 1 : ℕ) = n - 1 := by omega
  have hpos : (0 : ℚ) < ((n - 1 : ℕ) : ℚ) := by
    have h1 : 1 ≤ n - 1 := by omega
    exact_mod_cast Nat.lt_of_lt_of_le Nat.zero_lt_one h1
  have h1 : ((n - 1 : ℕ) : ℚ) / ((max (n - 1) 1 : ℕ) : ℚ) = 1 := by
    rw [hmax]
    exact div_self (ne_of_gt hpos)
  simp only [gradientColorAt, h1]
  rw [if_neg (by norm_num),
    show (255 : ℚ) - 255 * (((1 : ℚ) - 1/2) * 2) = 0 from by ring,
    show (0 : ℚ) * (1/2) = 0 from by ring,
    jsRound_eq 0 0 (by norm_num) (by norm_num)]

/-- C4 amended: every gradient position matches the reference formula
with the blue channel computed from the unrounded green value; for
`N = 1` the single color is the fixed `rgba(75, 75, 192, 0.6)`; and for
`N >= 2` the position-0 color is strictly closer to pure green than the
position-(N-1) color. -/
theorem gradient_matches_amended_formula (n i : Nat) (hn : 1 ≤ n) (hi : i < n) :
    (generateColorGradient n).getD i (RGBA.mk 0 0 0 0) = claimGradientColorAmended n i ∧
    (n = 1 → (generateColorGradient n).getD i (RGBA.mk 0 0 0 0) = RGBA.mk 75 75 192 (3/5)) ∧
    (2 ≤ n → distGreenSq ((generateColorGradient n).getD 0 (RGBA.mk 0 0 0 0)) <
      distGreenSq ((generateColorGradient n).getD (n - 1) (RGBA.mk 0 0 0 0))) := by
  refine ⟨?_, ?_, ?_⟩
  · rw [generateColorGradient_getD n i hi]
    exact gradientColorAt_eq_amended n i
  · intro h1
    subst h1
    have hi0 : i = 0 := by omega
    subst hi0
    rw [generateColorGradient_getD 1 0 (by norm_num)]
    exact gradientColorAt_zero 1
  · intro h2
    rw [generateColorGradient_getD n 0 (by omega),
      generateColorGradient_getD n (n - 1) (by omega),
      gradientColorAt_zero n, gradientColorAt_last n h2]
    norm_num [distGreenSq]

theorem gradient_matches_amended_formula_witness :
    1 ≤ 5 ∧ 2 < 5 ∧
    ((generateColorGradient 5).getD 2 (RGBA.mk 0 0 0 0) = claimGradientColorAmended 5 2 ∧
     (5 = 1 → (generateColorGradient 5).getD 2 (RGBA.mk 0 0 0 0) = RGBA.mk 75 75 192 (3/5)) ∧
     (2 ≤ 5 → distGreenSq ((generateColorGradient 5).getD 0 (RGBA.mk 0 0 0 0)) <
       distGreenSq ((generateColorGradient 5).getD (5 - 1) (RGBA.mk 0 0 0 0)))) :=
  ⟨by norm_num, by norm_num, gradient_matches_amended_formula 5 2 (by norm_num) (by norm_num)⟩

/-- Background colors of the latency comparison chart
(src/index.js line 628): the gradient in order, position 0 = best
latency. -/
def latencyChartColors (n : Nat) : List RGBA := generateColorGradient n

/-- Background colors of the throughput comparison chart
(src/index.js line 679):
`generateColorGradient(testResults.length).reverse()`, applied to data
already sorted best-first by throughput. -/
def throughputChartColors (n : Nat) : List RGBA :=
  (generateColorGradient n).reverse

theorem generateColorGradient_two :
    generateColorGradient 2 = [RGBA.mk 75 75 192 (3/5), RGBA.mk 255 0 0 (3/5)] := by
  have h0 := gradientColorAt_zero 2
  have h1 : gradientColorAt 2 1 = RGBA.mk 255 0 0 (3/5) := gradientColorAt_last 2 (by norm_num)
  simp [generateColorGradient, List.range_succ, h0, h1]

/-- C3: in the throughput comparison chart the scenario bars are listed
best-first (descending requests/sec), but the background colors are the
reversed gradient, so position 0 — the best-throughput scenario — gets
the color farthest from green (the reddest) and the last position the
greenest, while in the latency chart position 0 does get the greenest
color.  This contradicts the claim and the gradient's own design comment
"green (best) to red (worst)". -/
theorem throughput_chart_best_gets_reddest :
    throughputChartColors 2 = [RGBA.mk 255 0 0 (3/5), RGBA.mk 75 75 192 (3/5)] ∧
    distGreenSq ((throughputChartColors 2).getD 0 (RGBA.mk 0 0 0 0)) >
      distGreenSq ((throughputChartColors 2).getD 1 (RGBA.mk 0 0 0 0)) ∧
    distGreenSq ((latencyChartColors 2).getD 0 (RGBA.mk 0 0 0 0)) <
      distGreenSq ((latencyChartColors 2).getD 1 (RGBA.mk 0 0 0 0)) := by
  have hrev : throughputChartColors 2
      = [RGBA.mk 255 0 0 (3/5), RGBA.mk 75 75 192 (3/5)] := by
    rw [throughputChartColors, generateColorGradient_two]
    rfl
  have hlat : latencyChartColors 2
      = [RGBA.mk 75 75 192 (3/5), RGBA.mk 255 0 0 (3/5)] := by
    rw [latencyChartColors, generateColorGradient_two]
  refine ⟨hrev, ?_, ?_⟩
  · rw [hrev]
    norm_num [distGreenSq, List.getD]
  · rw [hlat]
    norm_num [distGreenSq, List.getD]

/-- Fallback duration lookup of `generateCharts` (src/index.js line 133):
`result.duration || config.duration || 30`.  `result.duration` is `none`
when absent and `some 0` is falsy; in both cases JS next evaluates
`config.duration`, but no binding named `config` is in scope inside
`generateCharts`, so evaluation throws a `ReferenceError`, modelled as
`Except.error ()`. -/
def fallbackDuration (resultDuration : Option Nat) : Except Unit Nat :=
  match resultDuration with
  | some d => if d = 0 then Except.error () else Except.ok d
  | none => Except.error ()

/-- Fallback timeline branch of `generateCharts` (src/index.js lines
131-138): after resolving the duration, push `result.requests.average`
for `i = 1..duration`; reading `.average` off a missing `requests`
object is a `TypeError`, modelled as `Except.error ()`. -/
def fallbackTimeline (resultDuration : Option Nat) (requestsAverage : Option ℚ) :
    Except Unit (List (Nat × ℚ)) :=
  match fallbackDuration resultDuration with
  | Except.error e => Except.error e
  | Except.ok d =>
    match requestsAverage with
    | some avg => Except.ok ((List.range' 1 d).map fun i => (i, avg))
    | none => Except.error ()

/-- Embeds the timeline extraction of `generateCharts` (src/index.js
lines 98-138).  `requestsTimeline` is the custom per-second mapping;
`requestsNumeric` is `some` of the numeric-keyed entries of
`result.requests` when that field is an object (an empty list when it
has no numeric keys), `none` when the field is absent;
`requestsAverage` is `result.requests.average` when present. -/
def buildTimelineData (requestsTimeline : List (Nat × Nat))
    (requestsNumeric : Option (List (Nat × Nat)))
    (resultDuration : Option Nat) (requestsAverage : Option ℚ) :
    Except Unit (List (Nat × ℚ)) :=
  if requestsTimeline.length > 0 then
    Except.ok ((reconstructTimeline requestsTimeline).map fun p => (p.1, (p.2 : ℚ)))
  else
    match requestsNumeric with
    | some rq =>
      if rq.length > 0 then
        Except.ok ((reconstructTimeline rq).map fun p => (p.1, (p.2 : ℚ)))
      else fallbackTimeline resultDuration requestsAverage
    | none => fallbackTimeline resultDuration requestsAverage

/-- C2: a result with an empty per-second mapping and no numeric keys in
`requests` reaches the fallback; if the result carries a (truthy)
`duration`, the fallback emits exactly `duration` entries each equal to
the average, but if `duration` is absent the fallback throws a
`ReferenceError` (the out-of-scope `config`) instead of defaulting to
the configured duration or 30, contradicting the claim that this path
never throws. -/
theorem timeline_fallback_reference_error :
    buildTimelineData [] (some []) none (some 100) = Except.error () ∧
    buildTimelineData [] (some []) (some 5) (some 100) =
      Except.ok [(1, 100), (2, 100), (3, 100), (4, 100), (5, 100)] := by
  constructor
  · rfl
  · rfl

/-- The pdfkit document state visible to `checkAndAddPage`: page height,
margins, and the vertical cursor `doc.y`. -/
structure DocState where
  pageHeight : ℚ
  marginTop : ℚ
  marginBottom : ℚ
  y : ℚ
  pageIndex : Nat
deriving DecidableEq

/-- The available vertical space as computed inside `checkAndAddPage`
(src/index.js lines 261-263 and 744-745):
`doc.page.height - doc.page.margins.bottom - doc.y`. -/
def remainingSpace (s : DocState) : ℚ := s.pageHeight - s.marginBottom - s.y

/-- Embeds `checkAndAddPage` (src/index.js lines 260-270 and 743-752):
if the available space is strictly below `requiredHeight`, call
`doc.addPage()` and return `true`, else return `false`.  pdfkit's
`addPage` starts a fresh page with the cursor reset to the top margin
(`doc.y = doc.page.margins.top`). -/
def checkAndAddPage (requiredHeight : ℚ) (s : DocState) : Bool × DocState :=
  if remainingSpace s < requiredHeight then
    (true, { s with y := s.marginTop, pageIndex := s.pageIndex + 1 })
  else
    (false, s)

/-- C5 counterexample: on an 842-unit page with 50-unit margins and the
cursor at 800, requesting 100 units starts a new page, but the remaining
space on the new page — by the claim's own definition, page height minus
bottom margin minus cursor — is `842 - 50 - 50 = 742`, not the claimed
full page height minus top margin (`842 - 50 = 792`). -/
theorem checkAndAddPage_remaining_counterexample :
    (checkAndAddPage 100 (DocState.mk 842 50 50 800 0)).1 = true ∧
    remainingSpace (checkAndAddPage 100 (DocState.mk 842 50 50 800 0)).2 ≠ 842 - 50 := by
  constructor
  · rw [checkAndAddPage, if_pos (by norm_num [remainingSpace])]
  · rw [checkAndAddPage, if_pos (by norm_num [remainingSpace])]
    norm_num [remainingSpace]

/-- C5 amended: the check starts a new page and returns true iff the
remaining space is strictly less than the required height, returns false
leaving the state unchanged otherwise, and after a transition the
remaining space on the new page equals the page height minus the top
margin minus the bottom margin. -/
theorem checkAndAddPage_spec (requiredHeight : ℚ) (s : DocState) :
    ((checkAndAddPage requiredHeight s).1 = true ↔ remainingSpace s < requiredHeight) ∧
    ((checkAndAddPage requiredHeight s).1 = false → (checkAndAddPage requiredHeight s).2 = s) ∧
    ((checkAndAddPage requiredHeight s).1 = true →
      remainingSpace (checkAndAddPage requiredHeight s).2
        = s.pageHeight - s.marginTop - s.marginBottom) := by
  refine ⟨?_, ?_, ?_⟩
  · rw [checkAndAddPage]
    by_cases hc : remainingSpace s < requiredHeight
    · rw [if_pos hc]
      simpa using hc
    · rw [if_neg hc]
      simpa using hc
  · intro h
    rw [checkAndAddPage] at h ⊢
    by_cases hc : remainingSpace s < requiredHeight
    · rw [if_pos hc] at h
      simp at h
    · rw [if_neg hc]
  · intro h
    rw [checkAndAddPage] at h ⊢
    by_cases hc : remainingSpace s < requiredHeight
    · rw [if_pos hc]
      simp only [remainingSpace]
      ring
    · rw [if_neg hc] at h
      simp at h

theorem checkAndAddPage_spec_witness :
    ((checkAndAddPage 100 (DocState.mk 842 50 50 800 0)).1 = true ↔
      remainingSpace (DocState.mk 842 50 50 800 0) < 100) ∧
    ((checkAndAddPage 100 (DocState.mk 842 50 50 800 0)).1 = false →
      (checkAndAddPage 100 (DocState.mk 842 50 50 800 0)).2 = DocState.mk 842 50 50 800 0) ∧
    ((checkAndAddPage 100 (DocState.mk 842 50 50 800 0)).1 = true →
      remainingSpace (checkAndAddPage 100 (DocState.mk 842 50 50 800 0)).2 = 842 - 50 - 50) :=
  checkAndAddPage_spec 100 (DocState.mk 842 50 50 800 0)

/-- Metric-name column width (src/index.js line 824):
`Math.min(150, pageWidth * 0.3)`. -/
def metricColWidth (pageWidth : ℚ) : ℚ := min 150 (pageWidth * (3/10))

/-- Per-page scenario-column capacity (src/index.js lines 828-831):
`Math.min(testResults.length, Math.floor(remainingWidth / 70))`. -/
def maxTestsFor (numTests : Nat) (remainingWidth : ℚ) : Nat :=
  min numTests (Int.toNat ⌊remainingWidth / 70⌋)

/-- Recursion of `buildBatches` on an explicit fuel bound (the list
length), standing in for the JS loop
`for (let i = 0; i < testResults.length; i += maxTests)
   batches.push(testResults.slice(i, i + maxTests))`
(src/index.js lines 835-838); each step takes the next `k` elements.
`fuel ≥ length` always holds at the call site, and the loop only
terminates for `k ≥ 1`. -/
def buildBatchesAux {α : Type} (k : Nat) : Nat → List α → List (List α)
  | _, [] => []
  | 0, l => [l]
  | fuel + 1, x :: xs => (x :: xs.take (k - 1)) :: buildBatchesAux k fuel (xs.drop (k - 1))

/-- Embeds the batching loop of `generateComparisonReport`
(src/index.js lines 835-838): slice the ranked list into consecutive
chunks of at most `k` scenarios. -/
def buildBatches {α : Type} (k : Nat) (l : List α) : List (List α) :=
  buildBatchesAux k l.length l

theorem buildBatchesAux_join {α : Type} (k : Nat) (hk : 0 < k) :
    ∀ (fuel : Nat) (l : List α), l.length ≤ fuel → (buildBatchesAux k fuel l).flatten = l := by
  intro fuel
  induction fuel with
  | zero =>
    intro l hl
    have h0 : l = [] := List.length_eq_zero.mp (Nat.le_zero.mp hl)
    subst h0
    rfl
  | succ n ih =>
    intro l hl
    cases l with
    | nil => rfl
    | cons x xs =>
      have hlen : (xs.drop (k - 1)).length ≤ n := by
        rw [List.length_drop]
        have hxs : xs.length ≤ n := by simpa using hl
        omega
      simp only [buildBatchesAux, List.flatten_cons, ih (xs.drop (k - 1)) hlen]
      rw [List.cons_append, List.take_append_drop]

theorem buildBatchesAux_size {α : Type} (k : Nat) (hk : 0 < k) :
    ∀ (fuel : Nat) (l : List α), l.length ≤ fuel →
      ∀ b ∈ buildBatchesAux k fuel l, b.length ≤ k := by
  intro fuel
  induction fuel with
  | zero =>
    intro l hl b hb
    have h0 : l = [] := List.length_eq_zero.mp (Nat.le_zero.mp hl)
    subst h0
    cases hb
  | succ n ih =>
    intro l hl b hb
    cases l with
    | nil => cases hb
    | cons x xs =>
      rcases List.mem_cons.mp hb with rfl | hb
      · have := List.length_take_le (k - 1) xs
        simp only [List.length_cons]
        omega
      · have hlen : (xs.drop (k - 1)).length ≤ n := by
          rw [List.length_drop]
          have hxs : xs.length ≤ n := by simpa using hl
          omega
        exact ih (xs.drop (k - 1)) hlen b hb

/-- C6: with the per-page column capacity computed from the remaining
table width (at least one column fitting), the batches are consecutive
slices of at most `maxTests` scenarios each, and concatenating them in
order reproduces the ranked scenario sequence exactly. -/
theorem batches_partition_ranked_order {α : Type} (l : List α) (remainingWidth : ℚ)
    (hk : 0 < maxTestsFor l.length remainingWidth) :
    (buildBatches (maxTestsFor l.length remainingWidth) l).flatten = l ∧
    ∀ b ∈ buildBatches (maxTestsFor l.length remainingWidth) l,
      b.length ≤ maxTestsFor l.length remainingWidth :=
  ⟨buildBatchesAux_join _ hk l.length l le_rfl,
   buildBatchesAux_size _ hk l.length l le_rfl⟩

theorem batches_partition_ranked_order_witness :
    0 < maxTestsFor ([0, 1, 2, 3, 4] : List ℕ).length 346 ∧
    ((buildBatches (maxTestsFor ([0, 1, 2, 3, 4] : List ℕ).length 346) [0, 1, 2, 3, 4]).flatten
        = [0, 1, 2, 3, 4] ∧
      ∀ b ∈ buildBatches (maxTestsFor ([0, 1, 2, 3, 4] : List ℕ).length 346) [0, 1, 2, 3, 4],
        b.length ≤ maxTestsFor ([0, 1, 2, 3, 4] : List ℕ).length 346) := by
  have hfloor : ⌊(346 : ℚ) / 70⌋ = 4 := by norm_num [Int.floor_eq_iff]
  have hmax : maxTestsFor ([0, 1, 2, 3, 4] : List ℕ).length 346 = 4 := by
    rw [maxTestsFor, hfloor]
    decide
  refine ⟨by rw [hmax]; norm_num, batches_partition_ranked_order _ _ (by rw [hmax]; norm_num)⟩

/-- Pie-chart guard of `generateCharts` (src/index.js lines 183-186):
`result.statusCodeStats && Object.keys(result.statusCodeStats).length > 0`.
The stats object is `none` when the field is absent (or otherwise
falsy); `some entries` models a truthy value, whose key/count pairs in
map iteration order are `entries` (empty for `{}` or for a malformed
truthy non-object value, whose `Object.keys`/`Object.entries` are
empty). -/
def hasStatusPieChart (stats : Option (List (String × Nat))) : Bool :=
  match stats with
  | none => false
  | some entries => decide (0 < entries.length)

/-- Pie-chart categories (src/index.js line 190):
`Object.keys(result.statusCodeStats)`. -/
def statusPieLabels (stats : Option (List (String × Nat))) : List String :=
  (stats.getD []).map Prod.fst

/-- Pie-chart values (src/index.js line 193):
`Object.values(result.statusCodeStats)`. -/
def statusPieData (stats : Option (List (String × Nat))) : List Nat :=
  (stats.getD []).map Prod.snd

/-- Document-section guard of `generatePDF` (src/index.js line 398):
`if (result.statusCodeStats)` — truthiness only, with no emptiness
check. -/
def hasStatusCodesSection (stats : Option (List (String × Nat))) : Bool :=
  stats.isSome

/-- The per-code lines of the status-codes document section
(src/index.js lines 401-403): `Object.entries(result.statusCodeStats)`. -/
def statusCodesSectionEntries (stats : Option (List (String × Nat))) : List (String × Nat) :=
  stats.getD []

/-- C7 counterexample: for an empty (but present, hence truthy)
status-code mapping, the pie chart is suppressed but the document
section is still emitted — the claim says both are suppressed. -/
theorem status_section_emitted_on_empty_stats :
    hasStatusPieChart (some []) = false ∧ hasStatusCodesSection (some []) = true := by
  constructor
  · rfl
  · rfl

/-- C7 amended: missing (falsy) statistics suppress both the pie chart
and the document section without error; an empty or malformed mapping
suppresses the pie chart but still emits the section header with zero
entries; a non-empty mapping yields the pie chart with the status codes
in map iteration order and their counts as values, plus the section. -/
theorem status_codes_handling (stats : Option (List (String × Nat))) :
    (stats = none → hasStatusPieChart stats = false ∧ hasStatusCodesSection stats = false) ∧
    (stats = some [] → hasStatusPieChart stats = false ∧ hasStatusCodesSection stats = true) ∧
    (∀ l, stats = some l → l ≠ [] →
      hasStatusPieChart stats = true ∧ hasStatusCodesSection stats = true ∧
      statusPieLabels stats = l.map Prod.fst ∧ statusPieData stats = l.map Prod.snd ∧
      statusCodesSectionEntries stats = l) := by
  refine ⟨?_, ?_, ?_⟩
  · intro h
    subst h
    exact ⟨rfl, rfl⟩
  · intro h
    subst h
    exact ⟨rfl, rfl⟩
  · intro l h hne
    subst h
    refine ⟨?_, rfl, rfl, rfl, rfl⟩
    simp [hasStatusPieChart, List.length_pos]
    exact hne

theorem status_codes_handling_witness :
    ((some [("200", 10)] : Option (List (String × Nat))) = some [("200", 10)]) ∧
    (([("200", 10)] : List (String × Nat)) ≠ []) ∧
    (hasStatusPieChart (some [("200", 10)]) = true ∧
     hasStatusCodesSection (some [("200", 10)]) = true ∧
     statusPieLabels (some [("200", 10)]) = [("200", (10 : Nat))].map Prod.fst ∧
     statusPieData (some [("200", 10)]) = [("200", (10 : Nat))].map Prod.snd ∧
     statusCodesSectionEntries (some [("200", 10)]) = [("200", 10)]) :=
  ⟨rfl, by decide,
   (status_codes_handling (some [("200", 10)])).2.2 [("200", 10)] rfl (by decide)⟩

/-- Embeds the payload preview truncation of `generatePDF` (src/index.js
lines 291-296): `payloadText` is the pretty-printed JSON text (modelled
as its character sequence); above 500 characters it is cut to the first
497 characters plus `"..."`. -/
def truncatePayload (payloadText : List Char) : List Char :=
  if payloadText.length > 500 then payloadText.take 497 ++ ['.', '.', '.']
  else payloadText

/-- C9: a payload text longer than 500 characters is replaced by its
first 497 characters followed by the three-character ellipsis, totalling
exactly 500 characters; a text of at most 500 characters is printed
unmodified. -/
theorem payload_preview_truncation (s : List Char) :
    (500 < s.length →
      truncatePayload s = s.take 497 ++ ['.', '.', '.'] ∧ (truncatePayload s).length = 500) ∧
    (s.length ≤ 500 → truncatePayload s = s) := by
  constructor
  · intro h
    have ht : truncatePayload s = s.take 497 ++ ['.', '.', '.'] := by
      rw [truncatePayload, if_pos (by omega)]
    refine ⟨ht, ?_⟩
    rw [ht, List.length_append, List.length_take]
    simp
    omega
  · intro h
    rw [truncatePayload, if_neg (by omega)]

theorem payload_preview_truncation_witness :
    500 < (List.replicate 501 'a').length ∧
    (truncatePayload (List.replicate 501 'a')
        = (List.replicate 501 'a').take 497 ++ ['.', '.', '.'] ∧
      (truncatePayload (List.replicate 501 'a')).length = 500) :=
  ⟨by rw [List.length_replicate]; omega,
   (payload_preview_truncation (List.replicate 501 'a')).1
     (by rw [List.length_replicate]; omega)⟩

/-- One element of the `testResults` array accumulated by `runTests`
(src/index.js lines 534-537), projected to the fields the comparison
report reads: `name`, `result.latency.average`,
`result.requests.average`. -/
structure TestEntry where
  name : String
  latencyAverage : ℚ
  requestsAverage : ℚ
deriving DecidableEq

/-- The comparator of src/index.js lines 574-576:
`(a, b) => a.result.latency.average - b.result.latency.average`,
as the ordering it induces. -/
def latencyLe (a b : TestEntry) : Prop := a.latencyAverage ≤ b.latencyAverage

/-- The comparator of src/index.js lines 667-669:
`(a, b) => b.result.requests.average - a.result.requests.average`
(descending throughput), as the ordering it induces. -/
def throughputGe (a b : TestEntry) : Prop := b.requestsAverage ≤ a.requestsAverage

instance : DecidableRel latencyLe :=
  fun a b => inferInstanceAs (Decidable (a.latencyAverage ≤ b.latencyAverage))

instance : DecidableRel throughputGe :=
  fun a b => inferInstanceAs (Decidable (b.requestsAverage ≤ a.requestsAverage))

instance : IsTotal TestEntry latencyLe :=
  ⟨fun a b => le_total a.latencyAverage b.latencyAverage⟩

instance : IsTrans TestEntry latencyLe :=
  ⟨fun _ _ _ hab hbc => le_trans hab hbc⟩

instance : IsTotal TestEntry throughputGe :=
  ⟨fun a b => (le_total b.requestsAverage a.requestsAverage).symm.symm⟩

instance : IsTrans TestEntry throughputGe :=
  ⟨fun _ _ _ hab hbc => le_trans hbc hab⟩

/-- Embeds `testResults.sort((a, b) => a.result.latency.average -
b.result.latency.average)` (src/index.js lines 574-576): JS `sort` is a
stable sort, modelled as `insertionSort` with the induced ordering. -/
def sortByLatency (l : List TestEntry) : List TestEntry :=
  l.insertionSort latencyLe

/-- Embeds `[...testResults].sort((a, b) => b.result.requests.average -
a.result.requests.average)` (src/index.js lines 667-669): a copy of the
already latency-sorted array, re-sorted descending by throughput. -/
def sortedByThroughput (l : List TestEntry) : List TestEntry :=
  (sortByLatency l).insertionSort throughputGe

/-- Embeds `getShortenedName` (src/index.js lines 755-759). -/
def getShortenedName (nm : String) (maxLength : Nat) : String :=
  if nm.length > maxLength then (nm.take (maxLength - 3)) ++ "..." else nm

/-- Models JS `Number.prototype.toFixed(2)` as exact decimal rounding to
hundredths (half-up), abstracting from binary floating point. -/
def jsToFixed2 (q : ℚ) : ℚ := (jsRound (q * 100) : ℚ) / 100

/-- The "Best Latency" callout of `generateComparisonReport`
(src/index.js lines 777-782): name (shortened to 25) and two-decimal
average latency of `testResults[0]` after the in-place latency sort. -/
def bestLatencyCallout (l : List TestEntry) : Option (String × ℚ) :=
  (sortByLatency l).head?.map fun t => (getShortenedName t.name 25, jsToFixed2 t.latencyAverage)

/-- The "Best Throughput" callout of `generateComparisonReport`
(src/index.js lines 783-788): name (shortened to 25) and two-decimal
average requests/sec of `sortedByThroughput[0]`. -/
def bestThroughputCallout (l : List TestEntry) : Option (String × ℚ) :=
  (sortedByThroughput l).head?.map fun t =>
    (getShortenedName t.name 25, jsToFixed2 t.requestsAverage)

/-- C8: with at least two completed scenarios, the primary ordering is
ascending by average latency and the throughput ordering is a separately
computed descending sort by average requests/sec (both permutations of
the input); the "best latency" callout names the first scenario of the
latency ordering with its two-decimal average latency, which is minimal
among all scenarios, and the "best throughput" callout names the first
scenario of the throughput ordering with its two-decimal requests/sec,
which is maximal among all scenarios. -/
theorem comparison_orderings_and_callouts (l : List TestEntry) (h2 : 2 ≤ l.length) :
    (sortByLatency l).Sorted latencyLe ∧ (sortByLatency l).Perm l ∧
    (sortedByThroughput l).Sorted throughputGe ∧ (sortedByThroughput l).Perm l ∧
    (∃ a, (sortByLatency l).head? = some a ∧
      bestLatencyCallout l = some (getShortenedName a.name 25, jsToFixed2 a.latencyAverage) ∧
      ∀ b ∈ l, a.latencyAverage ≤ b.latencyAverage) ∧
    (∃ c, (sortedByThroughput l).head? = some c ∧
      bestThroughputCallout l
        = some (getShortenedName c.name 25, jsToFixed2 c.requestsAverage) ∧
      ∀ b ∈ l, b.requestsAverage ≤ c.requestsAverage) := by
  have hlsorted : (sortByLatency l).Sorted latencyLe :=
    List.sorted_insertionSort latencyLe l
  have hlperm : (sortByLatency l).Perm l := List.perm_insertionSort latencyLe l
  have htsorted : (sortedByThroughput l).Sorted throughputGe :=
    List.sorted_insertionSort throughputGe (sortByLatency l)
  have htperm : (sortedByThroughput l).Perm l :=
    (List.perm_insertionSort throughputGe (sortByLatency l)).trans hlperm
  refine ⟨hlsorted, hlperm, htsorted, htperm, ?_, ?_⟩
  · cases hsl : sortByLatency l with
    | nil =>
      exfalso
      have hl0 : l.length = 0 := by
        have := hlperm.length_eq
        rw [hsl] at this
        simpa using this.symm
      omega
    | cons a rest =>
      refine ⟨a, rfl, by rw [bestLatencyCallout, hsl]; rfl, ?_⟩
      intro b hb
      have hbmem : b ∈ sortByLatency l := hlperm.mem_iff.mpr hb
      rw [hsl] at hbmem
      rcases List.mem_cons.mp hbmem with rfl | hbrest
      · exact le_refl _
      · rw [hsl] at hlsorted
        exact List.rel_of_sorted_cons hlsorted b hbrest
  · cases hst : sortedByThroughput l with
    | nil =>
      exfalso
      have hl0 : l.length = 0 := by
        have := htperm.length_eq
        rw [hst] at this
        simpa using this.symm
      omega
    | cons c rest =>
      refine ⟨c, rfl, by rw [bestThroughputCallout, hst]; rfl, ?_⟩
      intro b hb
      have hbmem : b ∈ sortedByThroughput l := htperm.mem_iff.mpr hb
      rw [hst] at hbmem
      rcases List.mem_cons.mp hbmem with rfl | hbrest
      · exact le_refl _
      · rw [hst] at htsorted
        exact List.rel_of_sorted_cons htsorted b hbrest

/-- Scenario A of the spec's end-to-end example: avg latency 10 ms, avg
500 req/sec. -/
def entryA : TestEntry := TestEntry.mk "A" 10 500

/-- Scenario B of the spec's end-to-end example: avg latency 20 ms, avg
300 req/sec. -/
def entryB : TestEntry := TestEntry.mk "B" 20 300

/-- An accumulated results list in scenario execution order (B ran
first), used to exhibit the reordering. -/
def exampleRunOrder : List TestEntry := [entryB, entryA]

theorem comparison_orderings_and_callouts_witness :
    2 ≤ exampleRunOrder.length ∧
    ((sortByLatency exampleRunOrder).Sorted latencyLe ∧
     (sortByLatency exampleRunOrder).Perm exampleRunOrder ∧
     (sortedByThroughput exampleRunOrder).Sorted throughputGe ∧
     (sortedByThroughput exampleRunOrder).Perm exampleRunOrder ∧
     (∃ a, (sortByLatency exampleRunOrder).head? = some a ∧
       bestLatencyCallout exampleRunOrder
         = some (getShortenedName a.name 25, jsToFixed2 a.latencyAverage) ∧
       ∀ b ∈ exampleRunOrder, a.latencyAverage ≤ b.latencyAverage) ∧
     (∃ c, (sortedByThroughput exampleRunOrder).head? = some c ∧
       bestThroughputCallout exampleRunOrder
         = some (getShortenedName c.name 25, jsToFixed2 c.requestsAverage) ∧
       ∀ b ∈ exampleRunOrder, b.requestsAverage ≤ c.requestsAverage)) :=
  ⟨by simp [exampleRunOrder],
   comparison_orderings_and_callouts exampleRunOrder (by simp [exampleRunOrder])⟩

/-- The content of the caller's `testResults` array after
`generateComparisonReport` returns: line 574 sorts the shared array in
place (`Array.prototype.sort` mutates), while the throughput ordering
(line 667) works on a spread copy, so the caller-visible array is
exactly the latency-ascending permutation. -/
def arrayAfterComparison (l : List TestEntry) : List TestEntry := sortByLatency l

/-- C10: after the comparison pass the shared results array holds a
permutation of the accumulated entries sorted ascending by average
latency — on the concrete execution order `[B, A]` this differs from
the original order — and every entry of the post array is literally an
entry of the pre array (the measurement results themselves are not
modified by the ranking). -/
theorem comparison_sorts_shared_array (l : List TestEntry) :
    (arrayAfterComparison l).Perm l ∧
    (arrayAfterComparison l).Sorted latencyLe ∧
    (∀ t ∈ arrayAfterComparison l, t ∈ l) ∧
    arrayAfterComparison exampleRunOrder ≠ exampleRunOrder := by
  have hperm : (arrayAfterComparison l).Perm l := List.perm_insertionSort latencyLe l
  refine ⟨hperm, List.sorted_insertionSort latencyLe l, fun t ht => hperm.mem_iff.mp ht, ?_⟩
  have hBA : ¬ latencyLe entryB entryA := by
    norm_num [latencyLe, entryA, entryB]
  have harr : arrayAfterComparison exampleRunOrder = [entryA, entryB] := by
    simp [arrayAfterComparison, sortByLatency, exampleRunOrder, List.insertionSort,
      List.orderedInsert, hBA]
  rw [harr, exampleRunOrder]
  intro h
  have hfirst : entryA = entryB := (List.cons.injEq _ _ _ _).mp h |>.1
  simp [entryA, entryB] at hfirst

theorem comparison_sorts_shared_array_witness :
    (arrayAfterComparison exampleRunOrder).Perm exampleRunOrder ∧
    (arrayAfterComparison exampleRunOrder).Sorted latencyLe ∧
    (∀ t ∈ arrayAfterComparison exampleRunOrder, t ∈ exampleRunOrder) ∧
    arrayAfterComparison exampleRunOrder ≠ exampleRunOrder :=
  comparison_sorts_shared_array exampleRunOrder
